import Mathlib

/-!
Verification of the StockBot repository (stock_chatbot): a shallow embedding
of the ticker refresh loop (`live_ticker.py`), the recommendation fetchers
(`recommender.py`), the intent router (`app.py`), and the price lookup
(`fetch_stock.py`), together with theorems settling the specification claims.

Python floats are modelled as rationals; Python exceptions are modelled with
`Except`; external HTTP calls and `random.random()` draws are modelled by
explicit oracles passed as arguments.
-/

namespace StockBot

/-! ## Shared Python-level modelling helpers -/

/-- Exceptions that the modelled Python code can raise. -/
inductive PyError where
  | requestFailed
  | jsonDecodeError
  | keyError
  | typeError
  | attrError
deriving DecidableEq, Repr

/-- Fuel-indexed worker for `replaceAll`; the fuel starts at the list
length and dominates it throughout, so the `0` arm is never reached on
the lists we pass. Structural recursion keeps it kernel-evaluable. -/
def replaceAllAux (pat rep : List Char) : ℕ → List Char → List Char
  | 0, l => l
  | _, [] => []
  | fuel + 1, c :: rest =>
    if pat ≠ [] ∧ pat.isPrefixOf (c :: rest) = true then
      rep ++ replaceAllAux pat rep fuel (List.drop pat.length (c :: rest))
    else
      c :: replaceAllAux pat rep fuel rest

/-- Replace every (non-overlapping, leftmost-first) occurrence of `pat` by
`rep`, mirroring Python `str.replace` on character lists. -/
def replaceAll (pat rep : List Char) (l : List Char) : List Char :=
  replaceAllAux pat rep l.length l

/-- Python `s.replace(pat, rep)` on strings. -/
def pyReplace (s pat rep : String) : String :=
  ⟨replaceAll pat.toList rep.toList s.toList⟩

/-- ASCII lower-casing of a string, mirroring Python `str.lower` on the
inputs that occur here (kernel-evaluable, unlike `String.toLower`). -/
def pyLower (s : String) : String :=
  ⟨s.toList.map Char.toLower⟩

/-- ASCII upper-casing of a string, mirroring Python `str.upper`. -/
def pyUpper (s : String) : String :=
  ⟨s.toList.map Char.toUpper⟩

/-- Python `s.endswith(suffix)`. -/
def pyEndsWith (s suffix : String) : Bool :=
  suffix.toList.isSuffixOf s.toList

/-- Python substring membership `sub in hay` on character lists. -/
def listContains (sub : List Char) : List Char → Bool
  | [] => sub.isEmpty
  | c :: rest => sub.isPrefixOf (c :: rest) || listContains sub rest

/-- Python `sub in hay` for strings (case-sensitive substring test). -/
def containsSub (hay sub : String) : Bool :=
  listContains sub.toList hay.toList

/-- Worker for `pySplit`: collects maximal runs of non-whitespace
characters (the accumulator holds the current run reversed). -/
def wsSplitAux : List Char → List Char → List (List Char)
  | [], acc => if acc.isEmpty then [] else [acc.reverse]
  | c :: rest, acc =>
    if c.isWhitespace then
      if acc.isEmpty then wsSplitAux rest []
      else acc.reverse :: wsSplitAux rest []
    else wsSplitAux rest (c :: acc)

/-- Python `input.split()`: split on whitespace runs, no empty pieces. -/
def pySplit (s : String) : List String :=
  (wsSplitAux s.toList []).map fun cs => ⟨cs⟩

/-! ## Ticker refresh loop (`live_ticker.py`, `update_live_prices`) -/

/-- One published quote: `live_ticker.py` stores a dict
with keys `price` and `change` per cleaned symbol. -/
structure QuoteEntry where
  price : ℚ
  change : ℚ
deriving DecidableEq, Repr

/-- The snapshot `st.session_state.live_prices`: a mapping from cleaned
symbol names to quote entries, modelled as an association list
(the builder inserts pairwise-distinct keys, so insertion = append). -/
abbrev Snapshot : Type := List (String × QuoteEntry)

/-- What `yf.Ticker(symbol).info` produced for one symbol: either the
lookup raised (`err`), or a dict whose `regularMarketPrice` /
`previousClose` values may each be absent (`none`). -/
inductive FetchOutcome where
  | err
  | ok (price : Option ℚ) (prevClose : Option ℚ)
deriving DecidableEq, Repr

/-- The `random.random()` draws one per-symbol iteration can consume, by
position in the code: `rBase` in the `.get` default base price, `rPerturb`
in the price perturbation, `rChange` in the synthetic percent change,
`rErrPrice`/`rErrChange` in the per-symbol `except` placeholder. -/
structure RandDraws where
  rBase : ℚ
  rPerturb : ℚ
  rChange : ℚ
  rErrPrice : ℚ
  rErrChange : ℚ
deriving DecidableEq, Repr

/-- A value of `random.random()` lies in `[0, 1)`. -/
def unitRange (q : ℚ) : Prop := 0 ≤ q ∧ q < 1

instance (q : ℚ) : Decidable (unitRange q) := by
  unfold unitRange
  infer_instance

/-- All draws of a `RandDraws` record are valid `random.random()` values. -/
def validDraws (rd : RandDraws) : Prop :=
  unitRange rd.rBase ∧ unitRange rd.rPerturb ∧ unitRange rd.rChange ∧
    unitRange rd.rErrPrice ∧ unitRange rd.rErrChange

instance (rd : RandDraws) : Decidable (validDraws rd) := by
  unfold validDraws
  infer_instance

/-- External behaviour of one refresh cycle: per-symbol fetch outcomes,
per-symbol random draws, and whether an exception escapes the whole cycle
body (`none` = no escaping exception; `some b` = an exception escapes, with
`b` recording whether the snapshot publication had already happened). -/
structure CycleOracle where
  fetch : String → FetchOutcome
  draws : String → RandDraws
  bodyFault : Option Bool

/-- The fixed symbol universe of `update_live_prices`. -/
def tickerSymbols : List String :=
  ["RELIANCE.NS", "TCS.NS", "HDFCBANK.NS", "INFY.NS", "TATAMOTORS.NS",
   "WIPRO.NS", "BAJFINANCE.NS"]

/-- Python `symbol.replace('.NS', '').replace('.BO', '')`. -/
def cleanSymbol (s : String) : String :=
  pyReplace (pyReplace s ".NS" "") ".BO" ""

/-- The cleaned names of the 7 configured symbols. -/
def cleanNames : List String :=
  ["RELIANCE", "TCS", "HDFCBANK", "INFY", "TATAMOTORS", "WIPRO", "BAJFINANCE"]

/-- The per-symbol `except` placeholder quote:
`price = 1000 + random.random() * 1000`,
`change = (random.random() - 0.5) * 2`. -/
def placeholderQuote (rd : RandDraws) : QuoteEntry :=
  { price := 1000 + rd.rErrPrice * 1000
    change := (rd.rErrChange - 1/2) * 2 }

/-- The base price of the synthetic fallback:
`live_prices.get(clean, {}).get('price', 1000 + random.random() * 1000)` —
the prior snapshot's price when the symbol is present, else a fresh
pseudo-random value. -/
def syntheticBase (prior : Snapshot) (name : String) (rd : RandDraws) : ℚ :=
  match List.lookup name prior with
  | some q => q.price
  | none => 1000 + rd.rBase * 1000

/-- The synthetic fallback quote used when `price` or `prev_close` is
absent: `price = base * (1 + (r - 0.5) * 0.01)` and
`change = (r - 0.5) * 2`. -/
def syntheticQuote (prior : Snapshot) (name : String) (rd : RandDraws) : QuoteEntry :=
  { price := syntheticBase prior name rd * (1 + (rd.rPerturb - 1/2) * (1/100))
    change := (rd.rChange - 1/2) * 2 }

/-- The body of the per-symbol loop iteration in `update_live_prices`,
including its inner `try/except` (a fetch error or the
`ZeroDivisionError` from `prev_close == 0` lands in the `except` arm). -/
def processSymbol (prior : Snapshot) (out : FetchOutcome) (rd : RandDraws)
    (cleanName : String) : QuoteEntry :=
  match out with
  | .err => placeholderQuote rd
  | .ok price prevClose =>
    match price, prevClose with
    | some p, some pc =>
      if pc = 0 then placeholderQuote rd
      else { price := p, change := (p - pc) / pc * 100 }
    | _, _ => syntheticQuote prior cleanName rd

/-- One complete refresh cycle body: the new `prices` dict built for all
7 symbols (insertion order = iteration order; keys are distinct). -/
def runCycle (prior : Snapshot) (oc : CycleOracle) : Snapshot :=
  tickerSymbols.map fun sym =>
    (cleanSymbol sym, processSymbol prior (oc.fetch sym) (oc.draws sym) (cleanSymbol sym))

/-! ## Recommendation source (`recommender.py`) -/

/-- One element of a `top_gainers` / `top_losers` array; `company_name`
is `none` when the key is absent (indexing it then raises `KeyError`). -/
structure RecoItem where
  company_name : Option String
deriving DecidableEq, Repr

/-- The `trending_stocks` object; a `none` field means the key is absent. -/
structure TrendingBlock where
  top_gainers : Option (List RecoItem)
  top_losers : Option (List RecoItem)
deriving DecidableEq, Repr

/-- The decoded JSON body; `trending_stocks = none` means the key is absent. -/
structure TrendingPayload where
  trending_stocks : Option TrendingBlock
deriving DecidableEq, Repr

/-- Outcome of `requests.get` on the trending endpoint: a network-level
failure (the call raises) or a response with a status code and a body
(`none` = the body is not decodable JSON, so `.json()` raises). -/
inductive HttpResult where
  | netErr
  | response (status : ℕ) (body : Option TrendingPayload)
deriving DecidableEq, Repr

/-- The `for i in list: recommendations.append(i['company_name'])` loop:
collects company names in order, raising `KeyError` at the first item
missing the key. -/
def extractNames : List RecoItem → Except PyError (List String)
  | [] => .ok []
  | i :: rest =>
    match i.company_name with
    | none => .error .keyError
    | some c => do
      let r ← extractNames rest
      .ok (c :: r)

/-- Embedding of `get_stockrecommendations` over an HTTP outcome: only a
200 status enters the parsing path; missing `trending_stocks` or
`top_gainers` keys raise `KeyError`; a non-200 response returns `[]`. -/
def get_stockrecommendations (r : HttpResult) : Except PyError (List String) :=
  match r with
  | .netErr => .error .requestFailed
  | .response status body =>
    if status = 200 then
      match body with
      | none => .error .jsonDecodeError
      | some payload =>
        match payload.trending_stocks with
        | none => .error .keyError
        | some block =>
          match block.top_gainers with
          | none => .error .keyError
          | some items => extractNames items
    else .ok []

/-- Embedding of `get_sellrecommendations`: identical to the gainer
version but reading `top_losers`. -/
def get_sellrecommendations (r : HttpResult) : Except PyError (List String) :=
  match r with
  | .netErr => .error .requestFailed
  | .response status body =>
    if status = 200 then
      match body with
      | none => .error .jsonDecodeError
      | some payload =>
        match payload.trending_stocks with
        | none => .error .keyError
        | some block =>
          match block.top_losers with
          | none => .error .keyError
          | some items => extractNames items
    else .ok []

/-! ## Cycle execution trace and loop control (`update_live_prices`) -/

/-- Observable events during one refresh cycle: per-symbol local
processing (which does not touch the shared snapshot) and the single
assignment `st.session_state.live_prices = prices`. -/
inductive LoopEvent where
  | process (sym : String)
  | publish (snap : Snapshot)
deriving DecidableEq

/-- The snapshot published by an event, if any. -/
def publishedSnap : LoopEvent → Option Snapshot
  | .publish s => some s
  | .process _ => none

/-- Executes the cycle body as the code does: iterate the symbols
accumulating the cycle-local `prices` dict, then assign the shared
snapshot once. Returns the event list and the value assigned. -/
def cycleStep (prior : Snapshot) (oc : CycleOracle) : List LoopEvent × Snapshot :=
  let acc := tickerSymbols.foldl
    (fun (acc : List LoopEvent × Snapshot) sym =>
      (acc.1 ++ [.process sym],
       acc.2 ++ [(cleanSymbol sym,
                  processSymbol prior (oc.fetch sym) (oc.draws sym) (cleanSymbol sym))]))
    ([], [])
  (acc.1 ++ [.publish acc.2], acc.2)

/-- The shared snapshot visible after a sequence of events, starting
from `prior`: each publish event replaces it wholesale. -/
def visibleSnap (prior : Snapshot) (evs : List LoopEvent) : Snapshot :=
  evs.foldl (fun cur e => match e with | .publish s => s | .process _ => cur) prior

/-- Result of one `while` iteration of `update_live_prices`: the loop
either halts (stop flag observed true at the top) or sleeps for a number
of seconds, continuing with a (possibly updated) snapshot. There is no
exception outcome: the `try/except` absorbs every cycle-body exception. -/
inductive StepResult where
  | halted
  | slept (secs : ℕ) (snap : Snapshot)
deriving DecidableEq

/-- One iteration of the `while not stop_ticker` loop: check the flag at
the top; on a normal body run publish the new snapshot and sleep 60; when
an exception escapes the body, sleep 30 (the snapshot is the new one only
if the exception struck after the publish). -/
def tickerStep (snap : Snapshot) (stopFlag : Bool) (oc : CycleOracle) : StepResult :=
  if stopFlag then .halted
  else
    match oc.bodyFault with
    | none => .slept 60 (runCycle snap oc)
    | some true => .slept 30 (runCycle snap oc)
    | some false => .slept 30 snap

/-- The loop run for at most `fuel` iterations, reading one stop-flag
value and one cycle oracle per iteration, and recording each iteration's
outcome (the trace ends early with `halted` when the flag is observed). -/
def loopTrace : ℕ → Snapshot → (ℕ → Bool) → (ℕ → CycleOracle) → List StepResult
  | 0, _, _, _ => []
  | fuel + 1, snap, flags, ocs =>
    match tickerStep snap (flags 0) (ocs 0) with
    | .halted => [.halted]
    | .slept s snap' =>
      .slept s snap' :: loopTrace fuel snap' (fun n => flags (n + 1)) (fun n => ocs (n + 1))

/-! ## Intent router (`app.py`, chat branch) -/

/-- The closed intent enumeration, in the priority order of the
`if/elif` chain of `app.py`. -/
inductive Intent where
  | chartLookup
  | buyRecommendation
  | sellRecommendation
  | marketSummary
  | newsQuery
  | fallbackNews
deriving DecidableEq, Repr

/-- Keywords of the BuyRecommendation rule. -/
def buyKeywords : List String :=
  ["buy", "recommend", "top pick", "top stocks", "which stock"]

/-- Keywords of the SellRecommendation rule. -/
def sellKeywords : List String :=
  ["sell", "dump", "what to avoid", "exit"]

/-- Keywords of the MarketSummary rule. -/
def summaryKeywords : List String :=
  ["market summary", "today\x27s trend", "market today", "what\x27s the trend"]

/-- Python `any(word in lower_input for word in kws)`. -/
def kwAny (inp : String) (kws : List String) : Bool :=
  kws.any fun k => containsSub inp k

/-- The `if/elif` chain of `app.py` lines 230-308 as a classifier over the
lower-cased input: deterministic, first match wins. -/
def classify (lowerInp : String) : Intent :=
  if containsSub lowerInp "chart" || containsSub lowerInp "price" then .chartLookup
  else if kwAny lowerInp buyKeywords then .buyRecommendation
  else if kwAny lowerInp sellKeywords then .sellRecommendation
  else if kwAny lowerInp summaryKeywords then .marketSummary
  else if containsSub lowerInp "news" || containsSub lowerInp "latest" then .newsQuery
  else .fallbackNews

/-- One item returned by `fetch_news`; `description = none` models a JSON
null value (on which Python `.lower()` raises `AttributeError`). -/
structure NewsItem where
  title : String
  url : String
  description : Option String
  publishedAt : String
deriving DecidableEq, Repr

/-- External world of one router invocation: the HTTP outcome each
recommender call would see, which candidate symbols the chart display
resolves, and the news items `fetch_news` returns. -/
structure Env where
  gainersHttp : HttpResult
  losersHttp : HttpResult
  chartOk : String → Bool
  news : List NewsItem

/-- Streamlit display side effects of a branch (`st.success` / `st.error`). -/
inductive DisplayItem where
  | success (msg : String)
  | errorBox (msg : String)
deriving DecidableEq, Repr

/-- The observable outcome of one routed turn: the `response` string
appended to the history and the items displayed by the branch. -/
structure TurnOutput where
  response : String
  displayed : List DisplayItem
deriving DecidableEq, Repr

/-- The always-assigned message of the buy branch (`for/else`, line 258). -/
def noPicksMsg : String := "No top picks found at the moment. Try again later."

/-- Token stoplist of the chart branch. -/
def stopWords : List String :=
  ["CHART", "PRICE", "SHOW", "ME", "FOR", "OF", "THE", "A"]

/-- Python `word.strip(".,?!")`: drop those characters from both ends. -/
def stripPunct (w : String) : String :=
  let punct : List Char := ['.', ',', '?', '!']
  ⟨((w.toList.dropWhile (punct.contains ·)).reverse.dropWhile (punct.contains ·)).reverse⟩

/-- The chart branch scan: first non-stoplist token whose stripped form
`display_stock_chart` resolves successfully. -/
def firstChartHit (chartOk : String → Bool) : List String → Option String
  | [] => none
  | w :: rest =>
    if w ∈ stopWords then firstChartHit chartOk rest
    else
      let cand := stripPunct w
      if chartOk cand then some cand else firstChartHit chartOk rest

/-- The ChartLookup branch (`app.py` lines 230-241). -/
def chartBranch (chartOk : String → Bool) (userInput : String) :
    Except PyError TurnOutput :=
  match firstChartHit chartOk (pySplit (pyUpper userInput)) with
  | some sym =>
    .ok { response := "Here\x27s the TradingView chart for " ++ sym ++ ". Check the left panel."
          displayed := [] }
  | none =>
    .ok { response := "Couldn\x27t detect a valid stock symbol. Try something like \x27Show RELIANCE chart\x27."
          displayed := [] }

/-- The BuyRecommendation branch (`app.py` lines 244-258): two fetches,
each item displayed with `st.success`, and — because the `else` hangs on a
`for` loop with no `break` — the no-picks response is assigned always. -/
def buyBranch (env : Env) : Except PyError TurnOutput := do
  let _ ← get_stockrecommendations env.gainersHttp
  let recs ← get_stockrecommendations env.gainersHttp
  .ok { response := noPicksMsg, displayed := recs.map DisplayItem.success }

/-- The SellRecommendation branch (`app.py` lines 261-265): items shown
with `st.error`; no `else`, so the response is left as the empty string. -/
def sellBranch (env : Env) : Except PyError TurnOutput := do
  let recs ← get_sellrecommendations env.losersHttp
  .ok { response := "", displayed := recs.map DisplayItem.errorBox }

/-- The MarketSummary branch (`app.py` lines 268-287): on a non-empty
list the loop evaluates `rec['symbol']` where `rec` is a string, raising
`TypeError`; only the empty halves reach their report lines. -/
def summaryBranch (env : Env) : Except PyError TurnOutput := do
  let buys ← get_stockrecommendations env.gainersHttp
  let sells ← get_sellrecommendations env.losersHttp
  let gPart ← if buys.isEmpty then pure "No gainers reported.\n"
    else Except.error PyError.typeError
  let lPart ← if sells.isEmpty then pure "No losers reported.\n"
    else Except.error PyError.typeError
  .ok { response := "📊 **Market Summary Today:**\n\n" ++ gPart ++ "\n" ++ lPart
        displayed := [] }

/-- Python `item.get("description", "").lower()` where the stored value
may be `None` (our `none`), on which `.lower()` raises. -/
def descLower (item : NewsItem) : Except PyError String :=
  match item.description with
  | some d => .ok (pyLower d)
  | none => .error .attrError

/-- Whether a news item matches any input token, as in both news-driven
branches: token contained in the lowered title or lowered description. -/
def newsMatch (ws : List String) (item : NewsItem) : Except PyError Bool := do
  let t := pyLower item.title
  let d ← descLower item
  .ok (ws.any fun w => containsSub t w || containsSub d w)

/-- The list-comprehension filter over the news items, in order. -/
def filterNews (ws : List String) : List NewsItem → Except PyError (List NewsItem)
  | [] => .ok []
  | i :: rest => do
    let m ← newsMatch ws i
    let r ← filterNews ws rest
    .ok (if m then i :: r else r)

/-- The markdown link lines built for matched news items. -/
def newsLinks (items : List NewsItem) : String :=
  items.foldl (fun acc i => acc ++ "- [" ++ i.title ++ "](" ++ i.url ++ ")\n") ""

/-- The NewsQuery branch (`app.py` lines 290-305). -/
def newsBranch (env : Env) (lowerInp : String) : Except PyError TurnOutput := do
  let rel ← filterNews (pySplit lowerInp) env.news
  if rel.isEmpty then
    .ok { response := "Couldn\x27t find specific news. Check the top news section above. 👆"
          displayed := [] }
  else
    .ok { response := "🗞️ Here\x27s the latest news related to your query:\n\n" ++ newsLinks (rel.take 5)
          displayed := [] }

/-- The fallback branch (`app.py` lines 308-322). -/
def fallbackBranch (env : Env) (lowerInp : String) : Except PyError TurnOutput := do
  let matched ← filterNews (pySplit lowerInp) env.news
  if matched.isEmpty then
    .ok { response := "I can help with stock charts, prices, top picks, and news. Try \x27top picks\x27, \x27sell today\x27, or \x27market summary\x27."
          displayed := [] }
  else
    .ok { response := "Here’s what I found related to your query:\n\n" ++ newsLinks (matched.take 3)
          displayed := [] }

/-- The router: lower the input, classify it, and run the selected
branch. An `error` result models a Python exception escaping the branch
(there is no `try/except` around the chain in `app.py`). -/
def route (env : Env) (userInput : String) : Except PyError TurnOutput :=
  let lowerInp := pyLower userInput
  match classify lowerInp with
  | .chartLookup => chartBranch env.chartOk userInput
  | .buyRecommendation => buyBranch env
  | .sellRecommendation => sellBranch env
  | .marketSummary => summaryBranch env
  | .newsQuery => newsBranch env lowerInp
  | .fallbackNews => fallbackBranch env lowerInp

/-! ## Chat history (`app.py` lines 223-224 and 324) -/

/-- One chat history entry. -/
structure ChatMsg where
  role : String
  content : String
deriving DecidableEq, Repr

/-- One processed turn: a falsy (empty) input is not processed at all;
otherwise the user entry is appended first, then the branch runs, and on
a normal return the assistant entry is appended (line 324). An escaping
exception (second component) skips the assistant append. -/
def processTurn (env : Env) (hist : List ChatMsg) (u : String) :
    List ChatMsg × Option PyError :=
  if u = "" then (hist, none)
  else
    let h1 := hist ++ [⟨"user", u⟩]
    match route env u with
    | .ok out => (h1 ++ [⟨"assistant", out.response⟩], none)
    | .error e => (h1, some e)

/-- A session: the turns processed in arrival order. -/
def processTurns (env : Env) (hist : List ChatMsg) : List String → List ChatMsg
  | [] => hist
  | u :: rest => processTurns env (processTurn env hist u).1 rest

/-- The response a successful route produces (empty on an exception). -/
def responseOf (env : Env) (u : String) : String :=
  match route env u with
  | .ok o => o.response
  | .error _ => ""

/-- The pair of entries each successfully processed turn contributes. -/
def expectedTail (env : Env) : List String → List ChatMsg
  | [] => []
  | u :: rest => ⟨"user", u⟩ :: ⟨"assistant", responseOf env u⟩ :: expectedTail env rest

/-! ## Current-price lookup (`fetch_stock.py`, `get_current_price`) -/

/-- The fields of `ticker.info` that `get_current_price` reads; `none`
models an absent key (`.get` returns `None`). -/
structure TickerInfo where
  regularMarketPrice : Option ℚ
  currentPrice : Option ℚ
  previousClose : Option ℚ
deriving DecidableEq, Repr

/-- External world of a price lookup: what `yf.Ticker(sym).info` yields
per full symbol string (an `error` models the attribute access raising). -/
structure PriceEnv where
  infoOf : String → Except PyError TickerInfo

/-- Python `a or b` restricted to optional numbers: `None` and `0` are
falsy, so either selects `b`. -/
def pyOrQ (a b : Option ℚ) : Option ℚ :=
  match a with
  | some x => if x = 0 then b else some x
  | none => b

/-- Suffix resolution at the top of `get_current_price`: append `.NS`
unless an exchange suffix is already present. -/
def resolveSymbol (symbol : String) : String :=
  if pyEndsWith symbol ".NS" || pyEndsWith symbol ".BO" then symbol
  else symbol ++ ".NS"

/-- The value `get_current_price` returns: a number or the string `N/A`. -/
inductive PriceVal where
  | num (q : ℚ)
  | na
deriving DecidableEq, Repr

/-- The body of the `try` block of `get_current_price`: the field chain
`regularMarketPrice`, then `currentPrice or previousClose`, then (for a
primary-exchange symbol) the secondary-exchange
`regularMarketPrice or currentPrice`, else `N/A`. -/
def innerPrice (env : PriceEnv) (symbol : String) : Except PyError PriceVal := do
  let sym := resolveSymbol symbol
  let info ← env.infoOf sym
  match info.regularMarketPrice with
  | some p => .ok (.num p)
  | none =>
    match pyOrQ info.currentPrice info.previousClose with
    | some p => .ok (.num p)
    | none =>
      if pyEndsWith sym ".NS" then do
        let binfo ← env.infoOf (pyReplace sym ".NS" ".BO")
        match pyOrQ binfo.regularMarketPrice binfo.currentPrice with
        | some p => .ok (.num p)
        | none => .ok .na
      else .ok .na

/-- Embedding of `get_current_price`: the `try` body with the enclosing
`except` arm turning any internal exception into `N/A`. -/
def get_current_price (env : PriceEnv) (symbol : String) : PriceVal :=
  match innerPrice env symbol with
  | .ok v => v
  | .error _ => .na

deriving instance DecidableEq for Except

/-! ## Helper lemmas -/

/-- A successful association-list lookup yields a member pair. -/
lemma lookup_mem {α β : Type} [DecidableEq α] {l : List (α × β)} {k : α} {v : β}
    (h : List.lookup k l = some v) : (k, v) ∈ l := by
  induction l with
  | nil => simp [List.lookup] at h
  | cons p rest ih =>
    rw [List.lookup] at h
    by_cases hk : k = p.1
    · simp [hk] at h
      have hkv : (k, v) = p := by
        rw [hk, ← h]
      exact hkv ▸ List.mem_cons_self p rest
    · have hb : (k == p.1) = false := beq_false_of_ne hk
      rw [hb] at h
      exact List.mem_cons_of_mem _ (ih h)

/-- When every item carries a company name, `extractNames` collects them
in order without raising. -/
lemma extractNames_all_some (items : List RecoItem)
    (h : ∀ i ∈ items, (i.company_name).isSome = true) :
    extractNames items = .ok (items.filterMap fun i => i.company_name) := by
  induction items with
  | nil => rfl
  | cons i rest ih =>
    have hi := h i (List.mem_cons_self i rest)
    obtain ⟨c, hc⟩ := Option.isSome_iff_exists.mp hi
    have hrest := ih fun j hj => h j (List.mem_cons_of_mem i hj)
    simp [extractNames, hc, hrest, List.filterMap_cons, Bind.bind, Except.bind]

/-! ## Claim C3: recommender error behaviour (corrected) -/

/-- A concrete malformed-payload environment: status 200 with a JSON body
lacking the `trending_stocks` key. -/
def malformedHttp : HttpResult := .response 200 (some ⟨none⟩)

/-- Claim C3 counterexample: on a 200 response whose payload lacks the
`trending_stocks` key, both recommender functions raise `KeyError`
instead of returning an empty list, refuting the claim that every HTTP
outcome yields a (possibly empty) list and never raises. -/
theorem recommender_raises_on_malformed_cex :
    get_stockrecommendations malformedHttp = .error .keyError ∧
    get_sellrecommendations malformedHttp = .error .keyError ∧
    (Except.error PyError.keyError : Except PyError (List String)) ≠ .ok [] := by
  refine ⟨rfl, rfl, by decide⟩

/-- Claim C3 (amended): a non-200 response yields an empty list for both
gainers and losers without raising, and a well-formed 200 payload yields
the company names in order; but a network-level failure raises, and so
does a malformed 200 payload (undecodable body, missing
`trending_stocks` / list keys, or an item missing `company_name`). -/
theorem recommender_error_behavior :
    (∀ (status : ℕ) (body : Option TrendingPayload), status ≠ 200 →
        get_stockrecommendations (.response status body) = .ok [] ∧
        get_sellrecommendations (.response status body) = .ok []) ∧
    get_stockrecommendations .netErr = .error .requestFailed ∧
    get_sellrecommendations .netErr = .error .requestFailed ∧
    get_stockrecommendations (.response 200 none) = .error .jsonDecodeError ∧
    get_sellrecommendations (.response 200 none) = .error .jsonDecodeError ∧
    (∀ payload : TrendingPayload, payload.trending_stocks = none →
        get_stockrecommendations (.response 200 (some payload)) = .error .keyError ∧
        get_sellrecommendations (.response 200 (some payload)) = .error .keyError) ∧
    (∀ (block : TrendingBlock) (gs ls : List RecoItem),
        block.top_gainers = some gs → block.top_losers = some ls →
        (∀ i ∈ gs, (i.company_name).isSome = true) →
        (∀ i ∈ ls, (i.company_name).isSome = true) →
        get_stockrecommendations (.response 200 (some ⟨some block⟩)) =
          .ok (gs.filterMap fun i => i.company_name) ∧
        get_sellrecommendations (.response 200 (some ⟨some block⟩)) =
          .ok (ls.filterMap fun i => i.company_name)) := by
  refine ⟨?_, rfl, rfl, rfl, rfl, ?_, ?_⟩
  · intro status body hs
    constructor <;> simp [get_stockrecommendations, get_sellrecommendations, hs]
  · intro payload hp
    constructor <;> simp [get_stockrecommendations, get_sellrecommendations, hp]
  · intro block gs ls hg hl hgs hls
    constructor <;>
      simp [get_stockrecommendations, get_sellrecommendations, hg, hl,
        extractNames_all_some gs hgs, extractNames_all_some ls hls]

/-- Witness for the amended C3 theorem at concrete inputs: a 404 response
gives empty lists, and a well-formed 200 payload gives the names. -/
theorem recommender_error_behavior_witness :
    get_stockrecommendations (.response 404 none) = .ok [] ∧
    get_stockrecommendations (.response 200 (some ⟨some ⟨some [⟨some "TCS"⟩], some []⟩⟩)) =
      .ok ["TCS"] := by
  constructor
  · exact (recommender_error_behavior.1 404 none (by decide)).1
  · have h := (recommender_error_behavior.2.2.2.2.2.2 ⟨some [⟨some "TCS"⟩], some []⟩
      [⟨some "TCS"⟩] [] rfl rfl (by decide) (by decide)).1
    simpa using h

/-! ## Claims C4 and C5: buy branch and market summary (code bugs) -/

/-- An environment whose recommendation source returns one gainer
("Tata Motors") and zero losers, everything else inert. -/
def oneGainerEnv : Env :=
  { gainersHttp := .response 200 (some ⟨some ⟨some [⟨some "Tata Motors"⟩], some []⟩⟩)
    losersHttp := .response 200 (some ⟨some ⟨some [], some []⟩⟩)
    chartOk := fun _ => false
    news := [] }

/-- Claim C4 failing input: with a non-empty gainer list the buy branch
still responds with the no-picks message (the `else` is attached to a
`for` with no `break`, so it always runs) while also displaying the item.
The code contradicts the claimed "otherwise ... the no-picks message is
not produced". -/
theorem buy_branch_always_no_picks_bug :
    route oneGainerEnv "buy" =
      .ok { response := noPicksMsg, displayed := [DisplayItem.success "Tata Motors"] } ∧
    noPicksMsg = "No top picks found at the moment. Try again later." := by
  exact ⟨by decide, rfl⟩

/-- Claim C5 failing input: a MarketSummary turn with a non-empty gainer
list crashes with `TypeError` (the branch indexes `rec['symbol']` on a
plain string), contradicting the claim that the router composes the
summary without raising. -/
theorem market_summary_type_error_bug :
    route oneGainerEnv "market today" = .error .typeError := by
  decide

/-! ## Claim C6: router priority (confirmed) -/

/-- Claim C6: the input "show me the buy chart" is classified as
ChartLookup even though it also matches the BuyRecommendation keywords,
and the routed result is completely independent of the recommendation
source, the news source and everything else except the chart resolver —
the BuyRecommendation branch is never executed. Classification itself is
a pure function of the input, hence deterministic. -/
theorem chart_priority_over_buy :
    classify (pyLower "show me the buy chart") = .chartLookup ∧
    kwAny (pyLower "show me the buy chart") buyKeywords = true ∧
    ∀ env env' : Env, env.chartOk = env'.chartOk →
      route env "show me the buy chart" = route env' "show me the buy chart" := by
  refine ⟨by decide, by decide, ?_⟩
  intro env env' h
  have hc : classify (pyLower "show me the buy chart") = .chartLookup := by decide
  simp only [route, hc, h]

/-- Two environments that differ in every source except the chart
resolver. -/
def chartEnvA : Env :=
  { gainersHttp := .netErr, losersHttp := .netErr
    chartOk := fun _ => false, news := [] }

/-- Second environment for the C6 witness, sharing only `chartOk`. -/
def chartEnvB : Env :=
  { gainersHttp := .response 200 (some ⟨some ⟨some [⟨some "X"⟩], some []⟩⟩)
    losersHttp := .response 500 none
    chartOk := fun _ => false
    news := [⟨"t", "u", some "d", "now"⟩] }

/-- Witness for C6 at concrete environments: a failing recommendation
source cannot influence the chart-classified turn. -/
theorem chart_priority_over_buy_witness :
    route chartEnvA "show me the buy chart" = route chartEnvB "show me the buy chart" :=
  chart_priority_over_buy.2.2 chartEnvA chartEnvB rfl

/-! ## Claim C7: sell branch with empty losers (corrected) -/

/-- Claim C7 counterexample: for "sell today" with an empty loser list
the router returns normally, but with the empty string as response and
nothing displayed — there is no fixed empty-result message in the sell
branch (unlike the buy branch's no-picks message). -/
theorem sell_today_no_empty_message_cex :
    route oneGainerEnv "sell today" = .ok { response := "", displayed := [] } ∧
    ("" : String) ≠ noPicksMsg := by
  exact ⟨by decide, by decide⟩

/-- Claim C7 (amended): for "sell today" with an empty loser list the
router does not raise; it displays nothing and leaves the response as
the empty string (no fixed empty-result message exists in this branch). -/
theorem sell_today_empty_amended :
    ∀ env : Env, get_sellrecommendations env.losersHttp = .ok [] →
      route env "sell today" = .ok { response := "", displayed := [] } := by
  intro env h
  have hc : classify (pyLower "sell today") = .sellRecommendation := by decide
  simp only [route, hc]
  simp [sellBranch, h, Bind.bind, Except.bind]

/-- Witness for the amended C7 theorem at a concrete environment. -/
theorem sell_today_empty_amended_witness :
    route oneGainerEnv "sell today" = .ok { response := "", displayed := [] } :=
  sell_today_empty_amended oneGainerEnv (by decide)

/-! ## Claim C8: chat history append-only (confirmed) -/

/-- The expected contribution of N turns has length 2N. -/
lemma expectedTail_length (env : Env) (inputs : List String) :
    (expectedTail env inputs).length = 2 * inputs.length := by
  induction inputs with
  | nil => rfl
  | cons u rest ih =>
    simp only [expectedTail, List.length_cons, ih]
    omega

/-- A successfully routed non-empty turn appends exactly the user entry
followed by the assistant entry. -/
lemma processTurn_ok (env : Env) (hist : List ChatMsg) (u : String)
    (hu : u ≠ "") (out : TurnOutput) (hout : route env u = .ok out) :
    processTurn env hist u =
      (hist ++ [⟨"user", u⟩, ⟨"assistant", out.response⟩], none) := by
  simp [processTurn, hu, hout]

/-- Worker for C8: a session of non-empty, successfully routed turns
only ever appends, two entries per turn, in arrival order. -/
lemma processTurns_append (env : Env) :
    ∀ (inputs : List String) (hist : List ChatMsg),
      (∀ u ∈ inputs, u ≠ "") → (∀ u ∈ inputs, (route env u).isOk = true) →
      processTurns env hist inputs = hist ++ expectedTail env inputs := by
  intro inputs
  induction inputs with
  | nil =>
    intro hist _ _
    simp [processTurns, expectedTail]
  | cons u rest ih =>
    intro hist hne hok
    have hu : u ≠ "" := hne u (List.mem_cons_self u rest)
    obtain ⟨out, hout⟩ : ∃ out, route env u = .ok out := by
      cases h : route env u with
      | ok o => exact ⟨o, rfl⟩
      | error e =>
        have hbad := hok u (List.mem_cons_self u rest)
        rw [h] at hbad
        simp [Except.isOk, Except.toBool] at hbad
    have hresp : responseOf env u = out.response := by
      simp [responseOf, hout]
    calc processTurns env hist (u :: rest)
        = processTurns env (hist ++ [⟨"user", u⟩, ⟨"assistant", out.response⟩]) rest := by
          simp [processTurns, processTurn_ok env hist u hu out hout]
      _ = (hist ++ [⟨"user", u⟩, ⟨"assistant", out.response⟩]) ++ expectedTail env rest :=
          ih _ (fun v hv => hne v (List.mem_cons_of_mem u hv))
            (fun v hv => hok v (List.mem_cons_of_mem u hv))
      _ = hist ++ expectedTail env (u :: rest) := by
          simp [expectedTail, hresp, List.append_assoc]

/-- Claim C8: for every session of non-empty user inputs each of which
routes without an escaping exception, the chat history after the session
is the prior history (unmodified, nothing removed) followed by exactly
one user entry and one assistant entry per turn, in arrival order; after
N turns from an empty history the length is exactly 2N. -/
theorem chat_history_two_entries_per_turn :
    ∀ (env : Env) (inputs : List String) (hist : List ChatMsg),
      (∀ u ∈ inputs, u ≠ "") → (∀ u ∈ inputs, (route env u).isOk = true) →
      processTurns env hist inputs = hist ++ expectedTail env inputs ∧
      (processTurns env hist inputs).length = hist.length + 2 * inputs.length := by
  intro env inputs hist hne hok
  have h := processTurns_append env inputs hist hne hok
  refine ⟨h, ?_⟩
  rw [h, List.length_append, expectedTail_length]

/-- Witness for C8: a concrete one-turn session against a concrete
environment, with both hypotheses discharged by evaluation. -/
theorem chat_history_two_entries_per_turn_witness :
    processTurns oneGainerEnv [] ["sell today"] =
      [] ++ expectedTail oneGainerEnv ["sell today"] ∧
    (processTurns oneGainerEnv [] ["sell today"]).length =
      List.length ([] : List ChatMsg) + 2 * (["sell today"].length) :=
  chat_history_two_entries_per_turn oneGainerEnv ["sell today"] [] (by decide) (by decide)

/-! ## Claim C10: `get_current_price` is total with a field chain (confirmed) -/

/-- Claim C10: for every environment and input symbol string the price
lookup is total and never raises — the enclosing handler turns every
internal exception into `N/A` — the result is always a number or `N/A`,
and the numeric result follows the source's chain: `regularMarketPrice`,
then (Python-or, so `0` is skipped) `currentPrice` / `previousClose`
under the primary suffix, then `regularMarketPrice` / `currentPrice`
under the secondary suffix, else `N/A`. -/
theorem get_current_price_total_chain (env : PriceEnv) (symbol : String) :
    (∀ e, innerPrice env symbol = .error e → get_current_price env symbol = .na) ∧
    (∀ v, innerPrice env symbol = .ok v → get_current_price env symbol = v) ∧
    (get_current_price env symbol = .na ∨ ∃ q, get_current_price env symbol = .num q) ∧
    (∀ e, env.infoOf (resolveSymbol symbol) = .error e →
        get_current_price env symbol = .na) ∧
    (∀ info p, env.infoOf (resolveSymbol symbol) = .ok info →
        info.regularMarketPrice = some p → get_current_price env symbol = .num p) ∧
    (∀ info p, env.infoOf (resolveSymbol symbol) = .ok info →
        info.regularMarketPrice = none →
        pyOrQ info.currentPrice info.previousClose = some p →
        get_current_price env symbol = .num p) ∧
    (∀ info, env.infoOf (resolveSymbol symbol) = .ok info →
        info.regularMarketPrice = none →
        pyOrQ info.currentPrice info.previousClose = none →
        pyEndsWith (resolveSymbol symbol) ".NS" = false →
        get_current_price env symbol = .na) ∧
    (∀ info binfo, env.infoOf (resolveSymbol symbol) = .ok info →
        info.regularMarketPrice = none →
        pyOrQ info.currentPrice info.previousClose = none →
        pyEndsWith (resolveSymbol symbol) ".NS" = true →
        env.infoOf (pyReplace (resolveSymbol symbol) ".NS" ".BO") = .ok binfo →
        get_current_price env symbol =
          (match pyOrQ binfo.regularMarketPrice binfo.currentPrice with
           | some p => PriceVal.num p
           | none => PriceVal.na)) := by
  refine ⟨?_, ?_, ?_, ?_, ?_, ?_, ?_, ?_⟩
  · intro e h
    simp [get_current_price, h]
  · intro v h
    simp [get_current_price, h]
  · cases h : innerPrice env symbol with
    | ok v =>
      cases v with
      | num q => exact Or.inr ⟨q, by simp [get_current_price, h]⟩
      | na => exact Or.inl (by simp [get_current_price, h])
    | error e => exact Or.inl (by simp [get_current_price, h])
  · intro e h
    simp [get_current_price, innerPrice, h, Bind.bind, Except.bind]
  · intro info p h1 h2
    simp [get_current_price, innerPrice, h1, h2, Bind.bind, Except.bind]
  · intro info p h1 h2 h3
    simp [get_current_price, innerPrice, h1, h2, h3, Bind.bind, Except.bind]
  · intro info h1 h2 h3 h4
    simp [get_current_price, innerPrice, h1, h2, h3, h4, Bind.bind, Except.bind]
  · intro info binfo h1 h2 h3 h4 h5
    cases hpy : pyOrQ binfo.regularMarketPrice binfo.currentPrice <;>
      simp [get_current_price, innerPrice, h1, h2, h3, h4, h5, hpy,
        Bind.bind, Except.bind]

/-- A concrete price environment: only `TCS.NS` resolves, with a
`regularMarketPrice` of 100; every other attribute access raises. -/
def priceEnvW : PriceEnv :=
  { infoOf := fun s =>
      if s = "TCS.NS" then .ok ⟨some 100, none, none⟩ else .error .requestFailed }

/-- Witness for C10 at a concrete environment and symbol: the first link
of the chain fires. -/
theorem get_current_price_total_chain_witness :
    get_current_price priceEnvW "TCS" = .num 100 :=
  (get_current_price_total_chain priceEnvW "TCS").2.2.2.2.1
    ⟨some 100, none, none⟩ 100 rfl rfl

/-! ## Claim C1: refresh-cycle snapshot invariant (corrected) -/

/-- The placeholder price lies in `[1000, 2000)` for valid draws. -/
lemma placeholder_price_bounds (rd : RandDraws) (h : validDraws rd) :
    1000 ≤ (placeholderQuote rd).price ∧ (placeholderQuote rd).price < 2000 := by
  obtain ⟨h0, h1⟩ := h.2.2.2.1
  unfold placeholderQuote
  constructor <;> simp <;> nlinarith

/-- The placeholder percent change lies in `[-1, 1]` for valid draws. -/
lemma placeholder_change_bounds (rd : RandDraws) (h : validDraws rd) :
    -1 ≤ (placeholderQuote rd).change ∧ (placeholderQuote rd).change ≤ 1 := by
  obtain ⟨h0, h1⟩ := h.2.2.2.2
  unfold placeholderQuote
  constructor <;> simp <;> linarith

/-- The synthetic base price is positive when the prior snapshot holds
only positive prices. -/
lemma syntheticBase_pos (prior : Snapshot) (name : String) (rd : RandDraws)
    (hv : validDraws rd) (hp : ∀ e ∈ prior, 0 < e.2.price) :
    0 < syntheticBase prior name rd := by
  rcases hl : List.lookup name prior with _ | q
  · have hb : syntheticBase prior name rd = 1000 + rd.rBase * 1000 := by
      unfold syntheticBase
      rw [hl]
    rw [hb]
    have h0 := hv.1.1
    nlinarith
  · have hb : syntheticBase prior name rd = q.price := by
      unfold syntheticBase
      rw [hl]
    rw [hb]
    exact hp (name, q) (lookup_mem hl)

/-- The synthetic quote keeps a positive price (perturbation factor is at
least `1 - 1/200`) and a percent change in `[-1, 1]`. -/
lemma syntheticQuote_pos (prior : Snapshot) (name : String) (rd : RandDraws)
    (hv : validDraws rd) (hp : ∀ e ∈ prior, 0 < e.2.price) :
    0 < (syntheticQuote prior name rd).price ∧
    -1 ≤ (syntheticQuote prior name rd).change ∧
    (syntheticQuote prior name rd).change ≤ 1 := by
  have hb := syntheticBase_pos prior name rd hv hp
  obtain ⟨hp0, hp1⟩ := hv.2.1
  obtain ⟨hc0, hc1⟩ := hv.2.2.1
  unfold syntheticQuote
  refine ⟨?_, ?_, ?_⟩
  · have hfac : (0 : ℚ) < 1 + (rd.rPerturb - 1/2) * (1/100) := by linarith
    exact mul_pos hb hfac
  · simp
    linarith
  · simp
    linarith

/-- A per-symbol iteration with a missing price or previous close takes
the synthetic-fallback path. -/
lemma processSymbol_missing (prior : Snapshot) (p pc : Option ℚ) (rd : RandDraws)
    (name : String) (h : p = none ∨ pc = none) :
    processSymbol prior (.ok p pc) rd name = syntheticQuote prior name rd := by
  cases p with
  | none => cases pc <;> rfl
  | some x =>
    cases pc with
    | none => rfl
    | some y => rcases h with h | h <;> simp at h

/-- Every per-symbol iteration yields a positive price, provided valid
draws, positive successfully fetched prices, and a positive prior
snapshot. -/
lemma processSymbol_pos (prior : Snapshot) (out : FetchOutcome) (rd : RandDraws)
    (name : String) (hv : validDraws rd)
    (hfetch : ∀ p pc, out = .ok (some p) pc → 0 < p)
    (hp : ∀ e ∈ prior, 0 < e.2.price) :
    0 < (processSymbol prior out rd name).price := by
  cases out with
  | err =>
    have := (placeholder_price_bounds rd hv).1
    unfold processSymbol
    linarith
  | ok price prevClose =>
    cases price with
    | none =>
      rw [processSymbol_missing prior none prevClose rd name (Or.inl rfl)]
      exact (syntheticQuote_pos prior name rd hv hp).1
    | some x =>
      cases prevClose with
      | none =>
        rw [processSymbol_missing prior (some x) none rd name (Or.inr rfl)]
        exact (syntheticQuote_pos prior name rd hv hp).1
      | some y =>
        by_cases hy : y = 0
        · have hb := (placeholder_price_bounds rd hv).1
          have hred : processSymbol prior (.ok (some x) (some y)) rd name
              = placeholderQuote rd := by
            simp [processSymbol, hy]
          rw [hred]
          linarith
        · simp only [processSymbol, if_neg hy]
          exact hfetch x (some y) rfl

/-- The cycle snapshot's key list is exactly the 7 cleaned names. -/
lemma runCycle_keys (prior : Snapshot) (oc : CycleOracle) :
    (runCycle prior oc).map Prod.fst = cleanNames := by
  simp only [runCycle, List.map_map]
  rfl

/-- Per-symbol membership of the built entry in the cycle snapshot. -/
lemma runCycle_mem (prior : Snapshot) (oc : CycleOracle) (sym : String)
    (h : sym ∈ tickerSymbols) :
    (cleanSymbol sym, processSymbol prior (oc.fetch sym) (oc.draws sym) (cleanSymbol sym)) ∈
      runCycle prior oc := by
  simp only [runCycle]
  exact List.mem_map_of_mem _ h

/-- One iteration with the stop flag false never halts. -/
lemma tickerStep_false_ne_halted (snap : Snapshot) (oc : CycleOracle) :
    tickerStep snap false oc ≠ .halted := by
  unfold tickerStep
  rcases oc.bodyFault with _ | b
  · simp
  · cases b <;> simp

/-- Claim C1 (amended): assuming every price the quote source does return
is positive and every prior-snapshot price is positive, a completed cycle
yields a snapshot with exactly one quote per configured symbol (its key
list is exactly the 7 cleaned names) and every price positive; a symbol
whose fetch raises gets the placeholder quote with a fresh pseudo-random
price in `[1000, 2000)` and change in `[-1, 1]`; a symbol with missing
data gets the synthetic quote, whose change is in `[-1, 1]` and whose
base price is the prior snapshot's price when present and a fresh
pseudo-random value in `[1000, 2000)` otherwise; and the iteration never
halts with the stop flag down (the cycle raises nothing and the loop
continues). Without the fetched-price positivity assumption, `price > 0`
fails (see the counterexample). -/
theorem refresh_cycle_invariant :
    ∀ (prior : Snapshot) (oc : CycleOracle),
    (∀ s, validDraws (oc.draws s)) →
    (∀ s p pc, oc.fetch s = .ok (some p) pc → 0 < p) →
    (∀ e ∈ prior, 0 < e.2.price) →
    ((runCycle prior oc).map Prod.fst = cleanNames ∧
     (∀ e ∈ runCycle prior oc, 0 < e.2.price) ∧
     (∀ sym ∈ tickerSymbols, oc.fetch sym = .err →
        (cleanSymbol sym, placeholderQuote (oc.draws sym)) ∈ runCycle prior oc ∧
        1000 ≤ (placeholderQuote (oc.draws sym)).price ∧
        (placeholderQuote (oc.draws sym)).price < 2000 ∧
        -1 ≤ (placeholderQuote (oc.draws sym)).change ∧
        (placeholderQuote (oc.draws sym)).change ≤ 1) ∧
     (∀ sym ∈ tickerSymbols, ∀ p pc, oc.fetch sym = .ok p pc → (p = none ∨ pc = none) →
        (cleanSymbol sym, syntheticQuote prior (cleanSymbol sym) (oc.draws sym)) ∈
          runCycle prior oc ∧
        -1 ≤ (syntheticQuote prior (cleanSymbol sym) (oc.draws sym)).change ∧
        (syntheticQuote prior (cleanSymbol sym) (oc.draws sym)).change ≤ 1) ∧
     (∀ (name : String) (rd : RandDraws), validDraws rd →
        List.lookup name prior = none →
        1000 ≤ syntheticBase prior name rd ∧ syntheticBase prior name rd < 2000) ∧
     (∀ (name : String) (rd : RandDraws) (q : QuoteEntry),
        List.lookup name prior = some q → syntheticBase prior name rd = q.price) ∧
     tickerStep prior false oc ≠ .halted) := by
  intro prior oc hv hfetch hp
  refine ⟨runCycle_keys prior oc, ?_, ?_, ?_, ?_, ?_, tickerStep_false_ne_halted prior oc⟩
  · intro e he
    simp only [runCycle, List.mem_map] at he
    obtain ⟨sym, _, rfl⟩ := he
    exact processSymbol_pos prior (oc.fetch sym) (oc.draws sym) (cleanSymbol sym)
      (hv sym) (fun p pc h => hfetch sym p pc h) hp
  · intro sym hsym herr
    have hm := runCycle_mem prior oc sym hsym
    rw [herr] at hm
    refine ⟨hm, (placeholder_price_bounds _ (hv sym)).1,
      (placeholder_price_bounds _ (hv sym)).2,
      (placeholder_change_bounds _ (hv sym)).1,
      (placeholder_change_bounds _ (hv sym)).2⟩
  · intro sym hsym p pc hok hmiss
    have hm := runCycle_mem prior oc sym hsym
    rw [hok, processSymbol_missing prior p pc (oc.draws sym) (cleanSymbol sym) hmiss] at hm
    exact ⟨hm, (syntheticQuote_pos prior (cleanSymbol sym) (oc.draws sym) (hv sym) hp).2.1,
      (syntheticQuote_pos prior (cleanSymbol sym) (oc.draws sym) (hv sym) hp).2.2⟩
  · intro name rd hrd hnone
    have hb : syntheticBase prior name rd = 1000 + rd.rBase * 1000 := by
      unfold syntheticBase
      rw [hnone]
    rw [hb]
    obtain ⟨h0, h1⟩ := hrd.1
    constructor <;> nlinarith
  · intro name rd q hq
    have hb : syntheticBase prior name rd = q.price := by
      unfold syntheticBase
      rw [hq]
    exact hb

/-- Uniform draws of one half each, used in concrete ticker scenarios. -/
def cexDraws : RandDraws := ⟨1/2, 1/2, 1/2, 1/2, 1/2⟩

/-- A concrete cycle oracle: `RELIANCE.NS` fetches a price of 0 with a
previous close of 100; every other symbol's fetch raises. -/
def cexOracle : CycleOracle :=
  { fetch := fun s => if s = "RELIANCE.NS" then .ok (some 0) (some 100) else .err
    draws := fun _ => cexDraws
    bodyFault := none }

/-- Claim C1 counterexample: a completed refresh cycle in which the quote
source returns a price of 0 for RELIANCE produces a snapshot entry whose
price is not positive — the code stores whatever numeric price the source
returns, so `price > 0` does not hold unconditionally. -/
theorem refresh_cycle_price_positive_cex :
    ¬ (∀ e ∈ runCycle [] cexOracle, 0 < e.2.price) := by
  intro hall
  have h2 := hall _ (runCycle_mem [] cexOracle "RELIANCE.NS" (by decide))
  have hfetch : cexOracle.fetch "RELIANCE.NS" = .ok (some 0) (some 100) := by
    simp [cexOracle]
  rw [hfetch] at h2
  simp only [processSymbol] at h2
  norm_num at h2

/-- The total-failure oracle: every symbol's fetch raises, draws are all
one half, and no exception escapes the cycle body. -/
def allErrOracle : CycleOracle :=
  { fetch := fun _ => .err
    draws := fun _ => cexDraws
    bodyFault := none }

/-- Witness for the amended C1 theorem at a concrete all-failing oracle
(total quote-source failure) and an empty prior snapshot. -/
theorem refresh_cycle_invariant_witness :
    (runCycle [] allErrOracle).map Prod.fst = cleanNames ∧
    tickerStep [] false allErrOracle ≠ .halted := by
  have h := refresh_cycle_invariant [] allErrOracle
    (fun _ => by norm_num [allErrOracle, validDraws, unitRange, cexDraws])
    (fun s p pc hx => by simp [allErrOracle] at hx)
    (fun e he => by simp at he)
  exact ⟨h.1, h.2.2.2.2.2.2⟩

/-! ## Claim C2: atomic snapshot publish (confirmed) -/

/-- Unfolding the cycle fold: events are the per-symbol processing steps
in order, and the accumulated dict collects the per-symbol entries. -/
lemma cycleFold_spec (prior : Snapshot) (oc : CycleOracle) :
    ∀ (l : List String) (evs : List LoopEvent) (snap : Snapshot),
      l.foldl (fun (acc : List LoopEvent × Snapshot) sym =>
          (acc.1 ++ [.process sym],
           acc.2 ++ [(cleanSymbol sym,
                      processSymbol prior (oc.fetch sym) (oc.draws sym) (cleanSymbol sym))]))
        (evs, snap) =
      (evs ++ l.map LoopEvent.process,
       snap ++ l.map fun sym =>
         (cleanSymbol sym,
          processSymbol prior (oc.fetch sym) (oc.draws sym) (cleanSymbol sym))) := by
  intro l
  induction l with
  | nil => intro evs snap; simp
  | cons s rest ih =>
    intro evs snap
    simp only [List.foldl_cons, ih, List.map_cons]
    simp [List.append_assoc]

/-- The cycle produces exactly the 7 processing events followed by the
single publish of the completed snapshot, which is also its value. -/
lemma cycleStep_spec (prior : Snapshot) (oc : CycleOracle) :
    cycleStep prior oc =
      (tickerSymbols.map LoopEvent.process ++ [LoopEvent.publish (runCycle prior oc)],
       runCycle prior oc) := by
  unfold cycleStep runCycle
  rw [cycleFold_spec prior oc tickerSymbols [] []]
  simp

/-- Processing events publish nothing. -/
lemma filterMap_process_nil (l : List String) :
    (l.map LoopEvent.process).filterMap publishedSnap = [] := by
  induction l with
  | nil => rfl
  | cons s rest ih => simp [publishedSnap, ih]

/-- A publish-free event sequence leaves the visible snapshot unchanged. -/
lemma visibleSnap_no_publish (prior : Snapshot) :
    ∀ evs : List LoopEvent, (∀ e ∈ evs, publishedSnap e = none) →
      visibleSnap prior evs = prior := by
  intro evs
  induction evs with
  | nil => intro _; rfl
  | cons e rest ih =>
    intro h
    cases e with
    | process s =>
      have := ih fun x hx => h x (List.mem_cons_of_mem _ hx)
      simpa [visibleSnap, List.foldl_cons] using this
    | publish s =>
      have := h (.publish s) (List.mem_cons_self _ _)
      simp [publishedSnap] at this

/-- The visible snapshot distributes over event concatenation. -/
lemma visibleSnap_append (prior : Snapshot) (l1 l2 : List LoopEvent) :
    visibleSnap prior (l1 ++ l2) = visibleSnap (visibleSnap prior l1) l2 := by
  simp [visibleSnap, List.foldl_append]

/-- Claim C2: during one refresh cycle all per-symbol quotes go into the
cycle-local mapping (the events preceding the publish are exactly the 7
per-symbol processing steps and publish nothing), the shared snapshot is
assigned exactly once, after all symbols are processed, with the complete
cycle result; and after any prefix of the cycle's events a reader sees
either the prior snapshot or the new complete one, never a mixture. -/
theorem snapshot_atomic_publish :
    ∀ (prior : Snapshot) (oc : CycleOracle),
      (cycleStep prior oc).2 = runCycle prior oc ∧
      (cycleStep prior oc).1.filterMap publishedSnap = [runCycle prior oc] ∧
      (cycleStep prior oc).1 =
        tickerSymbols.map LoopEvent.process ++ [LoopEvent.publish (runCycle prior oc)] ∧
      (∀ e ∈ (cycleStep prior oc).1.take tickerSymbols.length, publishedSnap e = none) ∧
      (∀ k, visibleSnap prior ((cycleStep prior oc).1.take k) = prior ∨
            visibleSnap prior ((cycleStep prior oc).1.take k) = runCycle prior oc) ∧
      (runCycle prior oc).map Prod.fst = cleanNames := by
  intro prior oc
  have hs := cycleStep_spec prior oc
  have hlen : (tickerSymbols.map LoopEvent.process).length = tickerSymbols.length :=
    List.length_map _ _
  refine ⟨by rw [hs], ?_, by rw [hs], ?_, ?_, runCycle_keys prior oc⟩
  · rw [hs]
    simp [List.filterMap_append, filterMap_process_nil, publishedSnap]
  · rw [hs]
    intro e he
    rw [← hlen, List.take_left] at he
    obtain ⟨s, _, rfl⟩ := List.mem_map.mp he
    rfl
  · intro k
    rw [hs]
    by_cases hk : k ≤ tickerSymbols.length
    · left
      have htake : (tickerSymbols.map LoopEvent.process ++
          [LoopEvent.publish (runCycle prior oc)]).take k =
          (tickerSymbols.map LoopEvent.process).take k := by
        rw [List.take_append_eq_append_take]
        have hz : k - tickerSymbols.length = 0 := by omega
        simp [hz]
      rw [htake]
      refine visibleSnap_no_publish prior _ fun e he => ?_
      obtain ⟨s, _, rfl⟩ := List.mem_map.mp (List.mem_of_mem_take he)
      rfl
    · right
      have htake : (tickerSymbols.map LoopEvent.process ++
          [LoopEvent.publish (runCycle prior oc)]).take k =
          tickerSymbols.map LoopEvent.process ++ [LoopEvent.publish (runCycle prior oc)] := by
        apply List.take_of_length_le
        simp [hlen]
        omega
      rw [htake, visibleSnap_append]
      rfl

/-- Witness for C2 at a concrete prior snapshot and oracle, discharging
the membership hypothesis of the no-early-publish conjunct on a concrete
event and instantiating the reader-visibility conjunct at a prefix. -/
theorem snapshot_atomic_publish_witness :
    publishedSnap (LoopEvent.process "TCS.NS") = none ∧
    (visibleSnap [] ((cycleStep [] allErrOracle).1.take 3) = [] ∨
     visibleSnap [] ((cycleStep [] allErrOracle).1.take 3) = runCycle [] allErrOracle) := by
  constructor
  · refine (snapshot_atomic_publish [] allErrOracle).2.2.2.1 (LoopEvent.process "TCS.NS") ?_
    rw [(snapshot_atomic_publish [] allErrOracle).2.2.1]
    rw [← List.length_map tickerSymbols LoopEvent.process, List.take_left]
    simp [tickerSymbols]
  · exact (snapshot_atomic_publish [] allErrOracle).2.2.2.2.1 3

/-! ## Claim C9: loop control, stop flag and backoff (confirmed) -/

/-- With the stop flag never raised, the loop never halts (it retries
forever, with either the nominal or the failure sleep). -/
lemma loopTrace_no_halt :
    ∀ (fuel : ℕ) (snap : Snapshot) (flags : ℕ → Bool) (ocs : ℕ → CycleOracle),
      (∀ n, flags n = false) → StepResult.halted ∉ loopTrace fuel snap flags ocs := by
  intro fuel
  induction fuel with
  | zero => intro snap flags ocs _; simp [loopTrace]
  | succ f ih =>
    intro snap flags ocs hflags
    simp only [loopTrace, hflags 0]
    cases hstep : tickerStep snap false (ocs 0) with
    | halted => exact absurd hstep (tickerStep_false_ne_halted snap (ocs 0))
    | slept s snap' =>
      simp only [List.mem_cons]
      rintro (h | h)
      · exact StepResult.noConfusion h
      · exact ih snap' (fun n => flags (n + 1)) (fun n => ocs (n + 1))
          (fun n => hflags (n + 1)) h

/-- When the flag first turns true at cycle `n` (and the fuel suffices),
the loop runs exactly `n` non-halting cycles and then halts at the top of
cycle `n`. -/
lemma loopTrace_halts_at :
    ∀ (n fuel : ℕ) (snap : Snapshot) (flags : ℕ → Bool) (ocs : ℕ → CycleOracle),
      n < fuel → flags n = true → (∀ m, m < n → flags m = false) →
      ∃ pre : List StepResult,
        loopTrace fuel snap flags ocs = pre ++ [StepResult.halted] ∧
        pre.length = n ∧ ∀ e ∈ pre, e ≠ StepResult.halted := by
  intro n
  induction n with
  | zero =>
    intro fuel snap flags ocs hlt hf _
    cases fuel with
    | zero => omega
    | succ f =>
      refine ⟨[], ?_, rfl, by simp⟩
      simp only [loopTrace, hf]
      rfl
  | succ k ih =>
    intro fuel snap flags ocs hlt hf hprev
    cases fuel with
    | zero => omega
    | succ f =>
      have h0 : flags 0 = false := hprev 0 (Nat.succ_pos k)
      simp only [loopTrace, h0]
      cases hstep : tickerStep snap false (ocs 0) with
      | halted => exact absurd hstep (tickerStep_false_ne_halted snap (ocs 0))
      | slept s snap' =>
        obtain ⟨pre, hpre, hlen, hne⟩ := ih f snap' (fun n => flags (n + 1))
          (fun n => ocs (n + 1)) (by omega) hf (fun m hm => hprev (m + 1) (by omega))
        refine ⟨.slept s snap' :: pre, ?_, by simp [hlen], ?_⟩
        · simp [hpre]
        · intro e he
          rcases List.mem_cons.mp he with rfl | hmem
          · exact fun h => StepResult.noConfusion h
          · exact hne e hmem

/-- Claim C9: one loop iteration halts exactly when the stop flag read at
the top is true (so the flag is consulted once per cycle, at the top, and
never mid-cycle); with the flag down the iteration never halts and never
propagates an exception — it sleeps 60 seconds after a normally completed
body, publishing the new snapshot, and 30 seconds when an exception
escapes the body; over a whole run, a never-raised flag means the loop
never terminates, and a flag first observed true at cycle `n` stops the
loop after exactly `n` completed cycles. -/
theorem ticker_loop_stop_and_backoff :
    ∀ (snap : Snapshot) (oc : CycleOracle),
      tickerStep snap true oc = .halted ∧
      tickerStep snap false oc ≠ .halted ∧
      (oc.bodyFault = none → tickerStep snap false oc = .slept 60 (runCycle snap oc)) ∧
      (∀ b, oc.bodyFault = some b → ∃ s, tickerStep snap false oc = .slept 30 s) ∧
      (∀ (flags : ℕ → Bool) (ocs : ℕ → CycleOracle) (fuel : ℕ),
        (∀ n, flags n = false) →
        StepResult.halted ∉ loopTrace fuel snap flags ocs) ∧
      (∀ (flags : ℕ → Bool) (ocs : ℕ → CycleOracle) (fuel n : ℕ),
        n < fuel → flags n = true → (∀ m, m < n → flags m = false) →
        ∃ pre : List StepResult,
          loopTrace fuel snap flags ocs = pre ++ [StepResult.halted] ∧
          pre.length = n ∧ ∀ e ∈ pre, e ≠ StepResult.halted) := by
  intro snap oc
  refine ⟨rfl, tickerStep_false_ne_halted snap oc, ?_, ?_, ?_, ?_⟩
  · intro h
    simp [tickerStep, h]
  · intro b h
    cases b <;> simp [tickerStep, h]
  · intro flags ocs fuel hflags
    exact loopTrace_no_halt fuel snap flags ocs hflags
  · intro flags ocs fuel n hlt hf hprev
    exact loopTrace_halts_at n fuel snap flags ocs hlt hf hprev

/-- The faulting oracle for the C9 witness: an exception escapes the
cycle body before the publish. -/
def faultOracle : CycleOracle :=
  { fetch := fun _ => .err
    draws := fun _ => cexDraws
    bodyFault := some false }

/-- Witness for C9 at concrete inputs: halt on a raised flag, the
60-second nominal sleep, the 30-second failure backoff, a never-halting
run under a never-raised flag, and a run stopped at the top of cycle 1. -/
theorem ticker_loop_stop_and_backoff_witness :
    tickerStep [] true allErrOracle = .halted ∧
    tickerStep [] false allErrOracle = .slept 60 (runCycle [] allErrOracle) ∧
    (∃ s, tickerStep [] false faultOracle = .slept 30 s) ∧
    StepResult.halted ∉ loopTrace 3 [] (fun _ => false) (fun _ => allErrOracle) ∧
    (∃ pre : List StepResult,
      loopTrace 3 [] (fun n => decide (n = 1)) (fun _ => allErrOracle) =
        pre ++ [StepResult.halted] ∧
      pre.length = 1 ∧ ∀ e ∈ pre, e ≠ StepResult.halted) := by
  refine ⟨(ticker_loop_stop_and_backoff [] allErrOracle).1,
    (ticker_loop_stop_and_backoff [] allErrOracle).2.2.1 rfl,
    (ticker_loop_stop_and_backoff [] faultOracle).2.2.2.1 false rfl,
    (ticker_loop_stop_and_backoff [] allErrOracle).2.2.2.2.1 _ _ 3 (fun _ => rfl),
    (ticker_loop_stop_and_backoff [] allErrOracle).2.2.2.2.2 _ _ 3 1 (by omega)
      (by decide) ?_⟩
  intro m hm
  have hm0 : m = 0 := by omega
  subst hm0
  rfl

end StockBot
